import Mathlib

/-!
Shallow embedding of the IntelliShieldX AI engine's streaming-with-timeout
fallback core (src/model/llm/model_manager.py, src/model/llm/chat_handler.py,
src/model/app.py), together with theorems settling the frozen claims.

Conventions of the embedding:
* Discrete time advances in "ticks" of 0.5 time units, the polling
  granularity of `result_queue.get(timeout=0.5)`.  An loop iteration that
  dequeues a fragment takes no time (the `get` returns immediately); an
  iteration whose `get` times out advances the clock by one tick.
  Thus `elapsed > timeout` (seconds) becomes `now > 2 * timeout` (ticks)
  and `time_since_last_chunk > 10` becomes `now - lastChunk > 20`.
* The producer thread (`stream_worker`) is modelled by a `World`: a
  schedule of fragments enqueued per tick, plus the ticks at which the
  completion event and the error queue become set.  All reads a loop
  iteration performs observe the world at the iteration's current tick.
* Provider clients are opaque; whether a client object is non-`None`
  is a Boolean parameter of the `ModelManager` model (for Groq/Google,
  which depend on the environment); the OpenAI and Anthropic clients are
  unconditionally `None` in `ModelManager.__init__` and are embedded as
  the constant `false`.
* Dictionary fields never read by the modelled code paths (`max_tokens`,
  `cost`) are omitted from the registry records.
-/

/-- Provider-client tag, the `"client"` field of a registry entry. -/
inductive ClientKind where
  | openai
  | anthropic
  | groq
  | google
deriving DecidableEq, Repr

/-- One entry of `ModelManager.models` (fields read by the modelled code). -/
structure ModelCfg where
  id : String
  name : String
  provider : String
  category : String
  clientKind : ClientKind
deriving DecidableEq, Repr

/-- The model registry `ModelManager.models`, in source order. -/
def registry : List ModelCfg :=
  [ { id := "gpt-3.5-turbo", name := "GPT-3.5 Turbo", provider := "OpenAI",
      category := "basic", clientKind := .openai },
    { id := "gpt-4-turbo", name := "GPT-4 Turbo", provider := "OpenAI",
      category := "standard", clientKind := .openai },
    { id := "gpt-4o", name := "GPT-4o", provider := "OpenAI",
      category := "advanced", clientKind := .openai },
    { id := "claude-3-haiku", name := "Claude 3 Haiku", provider := "Anthropic",
      category := "basic", clientKind := .anthropic },
    { id := "claude-3-sonnet", name := "Claude 3 Sonnet", provider := "Anthropic",
      category := "standard", clientKind := .anthropic },
    { id := "claude-3-opus", name := "Claude 3 Opus", provider := "Anthropic",
      category := "advanced", clientKind := .anthropic },
    { id := "mixtral-8x7b", name := "Llama 3.1 8B Instant", provider := "Groq",
      category := "basic", clientKind := .groq },
    { id := "llama-3.3-70b", name := "Llama 3.3 70B Versatile", provider := "Groq",
      category := "standard", clientKind := .groq },
    { id := "gemini-pro", name := "Gemini 1.5 Flash", provider := "Google",
      category := "standard", clientKind := .google } ]

/-- Which provider clients are non-`None`.  `ModelManager.__init__` sets
`openai_client` and `anthropic_client` to `None` unconditionally (even when
API keys are present); the Groq/Google clients depend on the environment. -/
structure MM where
  groqClient : Bool
  googleClient : Bool
deriving DecidableEq, Repr

/-- Truthiness of `self.openai_client` (always `None` in `__init__`). -/
def MM.openaiClient (_ : MM) : Bool := false

/-- Truthiness of `self.anthropic_client` (always `None` in `__init__`). -/
def MM.anthropicClient (_ : MM) : Bool := false

/-- Lookup `self.plan_access.get(user_plan, ["basic"])`. -/
def planAccess (plan : String) : List String :=
  if plan = "free" then ["basic"]
  else if plan = "standard" then ["basic", "standard"]
  else if plan = "pro" then ["basic", "standard", "advanced"]
  else if plan = "enterprise" then ["basic", "standard", "advanced", "enterprise"]
  else ["basic"]

/-- Constant `self.free_tier_unauthenticated_providers`. -/
def freeUnauthProviders : List String := ["Groq"]

/-- Constant `self.free_tier_authenticated_providers`. -/
def freeAuthProviders : List String := ["Groq", "Google"]

/-- One element of the list returned by `get_available_models`. -/
structure Entry where
  id : String
  name : String
  provider : String
  category : String
  available : Bool
deriving DecidableEq, Repr

/-- Truthiness of the client object `get_client` would return, and the
`client_available` computation of `get_available_models`: the `openai` and
`anthropic` branches are hard-coded `False`. -/
def clientAvailable (mm : MM) : ClientKind → Bool
  | .openai => false
  | .anthropic => false
  | .groq => mm.groqClient
  | .google => mm.googleClient

/-- The body of the `get_available_models` loop for one registry entry:
`none` when the entry is filtered out (`continue`), otherwise the dict
appended to `available`. -/
def mkEntry (mm : MM) (plan : String) (auth : Bool) (m : ModelCfg) : Option Entry :=
  if m.category ∈ planAccess plan then
    if plan = "free" ∧ auth = false ∧ m.provider ∉ freeUnauthProviders then none
    else if plan = "free" ∧ auth = true ∧ m.provider ∉ freeAuthProviders then none
    else some { id := m.id, name := m.name, provider := m.provider,
                category := m.category, available := clientAvailable mm m.clientKind }
  else none

/-- Embeds `ModelManager.get_available_models(user_plan, is_authenticated)`. -/
def getAvailableModels (mm : MM) (plan : String) (auth : Bool) : List Entry :=
  registry.filterMap (mkEntry mm plan auth)

/-- Embeds `ModelManager.get_model_config(model_id)`. -/
def getModelConfig (mid : String) : Option ModelCfg :=
  registry.find? (fun m => m.id = mid)

/-- The `priority_order` lookup of `get_priority` inside `get_fallback_models`
(`.get(config.get("client",""), 99)`, and 99 when the config is missing). -/
def getPriority (mid : String) : Nat :=
  match getModelConfig mid with
  | some c =>
    match c.clientKind with
    | .groq => 1
    | .google => 2
    | .openai => 99
    | .anthropic => 99
  | none => 99

/-- The category-rank dictionary of the sort key in `get_fallback_models`
(`{"basic": 1, "standard": 2, "advanced": 3, "enterprise": 4}.get(..., 5)`).
For ids drawn from the available list the config always exists; a missing
config would make the Python crash on `.get`, a path never reached. -/
def getCatRank (mid : String) : Nat :=
  match getModelConfig mid with
  | some c =>
    if c.category = "basic" then 1
    else if c.category = "standard" then 2
    else if c.category = "advanced" then 3
    else if c.category = "enterprise" then 4
    else 5
  | none => 5

/-- The sort key comparison of `fallback_models.sort(key=...)`: Python sorts
by the tuple `(get_priority(m), category_rank(m))` lexicographically. -/
def keyLE (a b : String) : Bool :=
  getPriority a < getPriority b ∨
    (getPriority a = getPriority b ∧ getCatRank a ≤ getCatRank b)

/-- Embeds `ModelManager.get_fallback_models(primary_model_id, user_plan,
is_authenticated)`: available+enabled model ids, primary removed, sorted
(stably) by `(priority, category rank)`. -/
def getFallbackModels (mm : MM) (primary plan : String) (auth : Bool) : List String :=
  let ids := ((getAvailableModels mm plan auth).filter (fun m => m.available)).map Entry.id
  (ids.filter (fun m => m ≠ primary)).mergeSort keyLE

/-- Embeds `models_to_try = [model_id] + get_fallback_models(...)`
(chat_handler.py line 46). -/
def candidatesFor (mm : MM) (mid plan : String) (auth : Bool) : List String :=
  mid :: getFallbackModels mm mid plan auth

/-- The free-tier model substitution in the `/api/chat/stream` route
(app.py lines 63-73): for an unauthenticated free-tier request whose model
is not found in the available list, or is found with a non-Groq provider,
force the first Groq model of the list, falling back to `"mixtral-8x7b"`. -/
def substituteModel (mm : MM) (mid plan : String) (auth : Bool) : String :=
  if plan = "free" ∧ auth = false then
    let avail := getAvailableModels mm plan false
    let bad :=
      match avail.find? (fun m => m.id = mid) with
      | none => true
      | some c => c.provider ≠ "Groq"
    if bad then
      match avail.find? (fun m => m.provider = "Groq") with
      | some g => g.id
      | none => "mixtral-8x7b"
    else mid
  else mid

/-- Behaviour of one `stream_worker` producer thread, discretised to ticks of
0.5 time units: `enq t` is the batch of fragments the worker pushes onto
`result_queue` during tick `t`; `compTick` / `errTick` are the ticks at which
`completion_event.set()` and `error_queue.put(e)` take effect (never, when
`none`).  The worker thread exits right after setting the completion event,
so "thread alive" is modelled as "completion not yet set". -/
structure World where
  enq : Nat → List String
  compTick : Option Nat
  errTick : Option (Nat × String)

/-- Reads `completion_event.is_set()` at tick `t`. -/
def isComplete (w : World) (t : Nat) : Bool :=
  match w.compTick with
  | some c => c ≤ t
  | none => false

/-- Reads the `error_queue` contents visible at tick `t` (`None` when still empty). -/
def errorAt (w : World) (t : Nat) : Option String :=
  match w.errTick with
  | some (c, e) => if c ≤ t then some e else none
  | none => none

/-- Reads `thread.is_alive()` at tick `t`. -/
def threadAlive (w : World) (t : Nat) : Bool :=
  !isComplete w t

/-- Consumer-side state of the `while True` loop of `_stream_with_timeout`:
`now` is elapsed ticks since `start_time`; `arrived` counts how many ticks of
the worker's enqueue schedule have already been moved into `queue`;
`hasData`, `lastChunk` model `has_received_data` and `last_chunk_time`;
`out` is the list of fragments yielded so far; `stall` is `stop_event`. -/
structure MState where
  now : Nat
  arrived : Nat
  queue : List String
  hasData : Bool
  lastChunk : Nat
  out : List String
  stall : Bool
deriving DecidableEq, Repr

/-- The monitor's state when the loop is first entered. -/
def initState : MState :=
  { now := 0, arrived := 0, queue := [], hasData := false,
    lastChunk := 0, out := [], stall := false }

/-- Transfer the fragments the worker enqueued during the current tick into
the monitor's view of `result_queue` (kept in arrival order). -/
def sync (w : World) (s : MState) : MState :=
  if s.arrived ≤ s.now then
    { s with queue := s.queue ++ w.enq s.now, arrived := s.now + 1 }
  else s

/-- How one call of `_stream_with_timeout` ends: normal generator exhaustion
(`break`), `raise TimeoutError`, `raise error`, or fuel exhaustion of the
model (the Python loop is still running). -/
inductive RKind where
  | done
  | timedOut
  | failed (e : String)
  | outOfFuel
deriving DecidableEq, Repr

/-- The consumer loop of `_stream_with_timeout` (chat_handler.py 167-200),
one constructor step per loop iteration, with the checks in source order:
1. `elapsed > timeout and not has_received_data` → set `stop_event`, raise
   `TimeoutError`;
2. `has_received_data and time_since_last_chunk > 10 and
   completion_event.is_set()` → `break`;
3. `not error_queue.empty()` → set `stop_event`, raise the error;
4. `completion_event.is_set() and result_queue.empty()` → `break`;
5. `result_queue.get(timeout=0.5)`: a non-empty queue yields its head at
   once (no time passes); an empty queue raises `queue.Empty` after one
   tick, whereupon `not thread.is_alive() and result_queue.empty() and
   completion_event.is_set()` → `break`, else `continue`. -/
def run (w : World) (timeout : Nat) : Nat → MState → RKind × MState
  | 0, s => (.outOfFuel, s)
  | fuel + 1, s =>
    let s := sync w s
    if s.now > 2 * timeout ∧ s.hasData = false then
      (.timedOut, { s with stall := true })
    else if s.hasData = true ∧ s.now - s.lastChunk > 20 ∧ isComplete w s.now then
      (.done, s)
    else
      match errorAt w s.now with
      | some e => (.failed e, { s with stall := true })
      | none =>
        if isComplete w s.now ∧ s.queue = [] then (.done, s)
        else
          match s.queue with
          | c :: rest =>
            run w timeout fuel
              { s with queue := rest, hasData := true, lastChunk := s.now,
                       out := s.out ++ [c] }
          | [] =>
            if threadAlive w s.now = false ∧ isComplete w s.now then (.done, s)
            else run w timeout fuel { s with now := s.now + 1 }

/-- All fragments the worker enqueues during ticks `< n`, in order. -/
def enqUpTo (w : World) (n : Nat) : List String :=
  match n with
  | 0 => []
  | n + 1 => enqUpTo w n ++ w.enq n

/-- Fragments still to arrive from tick `a` through tick `c`. -/
def arrRem (w : World) (c a : Nat) : Nat :=
  if a ≤ c then (w.enq a).length + arrRem w c (a + 1) else 0
termination_by c + 1 - a

/-- Termination measure for the monitor loop once the worker is known to
set the completion event at tick `c` and enqueue nothing afterwards. -/
def mu (w : World) (c : Nat) (s : MState) : Nat :=
  (c + 1 - s.now) + s.queue.length + arrRem w c s.arrived

/-- The Python loop of `_stream_with_timeout` never exits, whatever fuel the
model grants it. -/
def runsForever (w : World) (timeout : Nat) : Prop :=
  ∀ fuel, (run w timeout fuel initState).1 = RKind.outOfFuel

/-- A family of idle monitor states: tick `k` reached, no fragment ever
dequeued when `d = false`, output `o` already yielded when `d = true`. -/
def quietState (k : Nat) (d : Bool) (o : List String) : MState :=
  { now := k, arrived := k, queue := [], hasData := d,
    lastChunk := 0, out := o, stall := false }

/-- Abstracted outcome of one `_stream_with_timeout` call for a candidate:
success with the fragments it yielded, a `TimeoutError`, or any other
exception with the fragments already yielded before it was raised
(`TimeoutError` carries no fragments: the timeout branch fires only with
`has_received_data` false). -/
inductive AttOutcome where
  | success (frags : List String)
  | timedOut
  | errored (partial_ : List String) (msg : String)
deriving DecidableEq, Repr

/-- Observable trace of one `stream_response` call: `chunks` are the strings
the generator yields, `raised` the exception message it raises after the
last yield (if any).  `attempted` and `noticed` are ghost instrumentation
recording, in order, the `(enumerate index, model id)` pairs for which an
attempt was actually started and for which a switch notice was yielded. -/
structure Trace where
  chunks : List String
  raised : Option String
  attempted : List (Nat × String)
  noticed : List (Nat × String)
deriving DecidableEq, Repr

/-- The notice `"\n\n[Switching to {name} due to timeout...]\n\n"`. -/
def switchNotice (cfg : ModelCfg) : String :=
  "\n\n[Switching to " ++ cfg.name ++ " due to timeout...]\n\n"

/-- The message `f"Model {id} timed out after {timeout} seconds"`. -/
def timeoutMsg (mid : String) (timeout : Nat) : String :=
  "Model " ++ mid ++ " timed out after " ++ toString timeout ++ " seconds"

/-- The message `f"All available models failed. Last error: ..."` (with the
Python `last_error or 'Unknown error'` default). -/
def allFailedMsg (lastError : Option String) : String :=
  "All available models failed. Last error: " ++ lastError.getD "Unknown error"

/-- Prepend chunks/trace entries produced for the current candidate to the
trace of the remainder of the loop. -/
def Trace.prepend (cs : List String) (att ntc : List (Nat × String)) (tr : Trace) : Trace :=
  { chunks := cs ++ tr.chunks, raised := tr.raised,
    attempted := att ++ tr.attempted, noticed := ntc ++ tr.noticed }

/-- The candidate loop of `ChatHandler.stream_response` (chat_handler.py
49-81).  `att` maps a model id to the outcome of its attempt; `idx` is the
`enumerate` index.  A candidate without a registry config or with a `None`
client is skipped (`continue`) without an attempt and without a notice;
otherwise a switch notice is yielded first whenever `idx > 0`, then the
attempt runs: on success its fragments are relayed and the generator
returns; on `TimeoutError` or any other exception `last_error` is updated
and the loop moves to the next candidate.  When the loop ends without a
success, the error text is yielded as an ordinary chunk and then raised. -/
def streamLoop (mm : MM) (att : String → AttOutcome) (timeout : Nat) :
    List String → Nat → Option String → Trace
  | [], _, lastError =>
    let msg := allFailedMsg lastError
    { chunks := ["\n\n[Error: " ++ msg ++ "]"], raised := some msg,
      attempted := [], noticed := [] }
  | mid :: rest, idx, lastError =>
    match getModelConfig mid with
    | none => streamLoop mm att timeout rest (idx + 1) lastError
    | some cfg =>
      if clientAvailable mm cfg.clientKind = false then
        streamLoop mm att timeout rest (idx + 1) lastError
      else
        let notices := if idx > 0 then [switchNotice cfg] else []
        let ntc := if idx > 0 then [(idx, mid)] else []
        match att mid with
        | .success frags =>
          { chunks := notices ++ frags, raised := none,
            attempted := [(idx, mid)], noticed := ntc }
        | .timedOut =>
          Trace.prepend notices [(idx, mid)] ntc
            (streamLoop mm att timeout rest (idx + 1) (some (timeoutMsg mid timeout)))
        | .errored partial_ msg =>
          Trace.prepend (notices ++ partial_) [(idx, mid)] ntc
            (streamLoop mm att timeout rest (idx + 1) (some msg))

/-- Embeds `ChatHandler.stream_response` for a request, from the candidate list
built at chat_handler.py line 46. -/
def streamResponse (mm : MM) (att : String → AttOutcome) (timeout : Nat)
    (mid plan : String) (auth : Bool) : Trace :=
  streamLoop mm att timeout (candidatesFor mm mid plan auth) 0 none

/-- One record of the caller-visible SSE stream produced by
`chat_stream.generate` in app.py: a `{content}` record, an `{error}` record,
or the terminal `data: [DONE]` marker. -/
inductive Event where
  | content (s : String)
  | errorRec (s : String)
  | doneMark
deriving DecidableEq, Repr

/-- Embeds `chat_stream.generate` (app.py 75-95): every chunk the handler yields
becomes a content record; a raised exception becomes one error record; the
`[DONE]` marker always follows. -/
def generateEvents (tr : Trace) : List Event :=
  tr.chunks.map Event.content ++
    (match tr.raised with
     | some e => [Event.errorRec e]
     | none => []) ++ [Event.doneMark]

/-- Full caller-visible stream for a request: free-tier substitution at the
route, then `stream_response`, then SSE framing. -/
def chatStream (mm : MM) (att : String → AttOutcome) (timeout : Nat)
    (mid plan : String) (auth : Bool) : List Event :=
  generateEvents (streamResponse mm att timeout (substituteModel mm mid plan auth) plan auth)

/-- Claim-side ordering relation of C7, read off the spec's words: provider
priority Groq before Google before OpenAI/Anthropic, then capability tier
basic < standard < advanced < enterprise (by the providers and categories
the registry assigns to the two ids). -/
def specProvRank (mid : String) : Nat :=
  match getModelConfig mid with
  | some c => if c.provider = "Groq" then 0 else if c.provider = "Google" then 1 else 2
  | none => 3

/-- Claim-side capability-tier rank of C7. -/
def specTierRank (mid : String) : Nat :=
  match getModelConfig mid with
  | some c =>
    if c.category = "basic" then 0
    else if c.category = "standard" then 1
    else if c.category = "advanced" then 2
    else 3
  | none => 4

/-- Claim-side relation of C7: `a` may precede `b`. -/
def specLE (a b : String) : Prop :=
  specProvRank a < specProvRank b ∨
    (specProvRank a = specProvRank b ∧ specTierRank a ≤ specTierRank b)

/-- Concrete stalled world of C2: one fragment during tick 0, then the
provider hangs forever: no further fragments, no completion, no error. -/
def stallWorld : World :=
  { enq := fun t => if t = 0 then ["hello"] else [],
    compTick := none, errTick := none }

/-- Concrete well-behaved world: one fragment during tick 0, completion at
tick 5, no error. -/
def finishWorld : World :=
  { enq := fun t => if t = 0 then ["hello"] else [],
    compTick := some 5, errTick := none }

/-- Concrete world of C3's witness: the provider never produces anything. -/
def silentWorld : World :=
  { enq := fun _ => [], compTick := none, errTick := none }

/-- Concrete world of C5's counterexample: fragment `"a"` during tick 0,
then a last fragment `"b"` enqueued during tick 30, at which tick the worker
also sets the completion event. -/
def lateWorld : World :=
  { enq := fun t => if t = 0 then ["a"] else if t = 30 then ["b"] else [],
    compTick := some 30, errTick := none }

/-- Concrete world of C6's counterexample: fragment during tick 0, then the
provider stalls; at tick 30 the call raises, so the worker pushes the error
and sets completion (chat_handler.py 155-157). -/
def quietErrWorld : World :=
  { enq := fun t => if t = 0 then ["hi"] else [],
    compTick := some 30, errTick := some (30, "boom") }

/-- Concrete world of C6's witness: the provider raises at tick 4 before
producing anything; the worker pushes the error and sets completion. -/
def earlyErrWorld : World :=
  { enq := fun _ => [], compTick := some 4, errTick := some (4, "boom") }

/-- Attempt environment where `"mixtral-8x7b"` always fails with a Groq-style
HTTP 429 rate-limit error and every other candidate succeeds. -/
def rateLimitEnv : String → AttOutcome :=
  fun mid =>
    if mid = "mixtral-8x7b" then
      .errored [] "Error code: 429 - Rate limit reached for model, please try again in 4.0s"
    else .success ["ok"]

/-- Attempt environment where every candidate fails with the same error. -/
def allFailEnv : String → AttOutcome :=
  fun _ => .errored [] "boom"

/-- Attempt environment where every candidate succeeds with one fragment. -/
def okEnv : String → AttOutcome :=
  fun _ => .success ["ok"]

/-- The entry `get_available_models` builds for `mixtral-8x7b`. -/
def mixtralEntry (gq : Bool) : Entry :=
  { id := "mixtral-8x7b", name := "Llama 3.1 8B Instant", provider := "Groq",
    category := "basic", available := gq }

/-- Final monitor state of an attempt that times out with zero fragments:
the `TimeoutError` is raised at tick `2*T + 1`, i.e. `deadline + 0.5` time
units after the attempt started, with `stop_event` set. -/
def timeoutFinal (T : Nat) : MState :=
  { now := 2 * T + 1, arrived := 2 * T + 2, queue := [], hasData := false,
    lastChunk := 0, out := [], stall := true }

/-- Final monitor state of an attempt whose worker pushed an error at tick
`e` before any fragment was produced: the error is re-raised at tick `e`
with `stop_event` set. -/
def failedFinal (e : Nat) : MState :=
  { now := e, arrived := e + 1, queue := [], hasData := false,
    lastChunk := 0, out := [], stall := true }

/-- The entry `get_available_models` builds for `gpt-3.5-turbo`. -/
def gpt35Entry : Entry :=
  { id := "gpt-3.5-turbo", name := "GPT-3.5 Turbo", provider := "OpenAI",
    category := "basic", available := false }

/-- C8: for an unauthenticated free-tier request whose model id is not the
(only) allowed Groq model, the route substitutes the first Groq model of the
available list, which is always `mixtral-8x7b` — the hard-coded default —
whatever the state of the provider clients. -/
theorem c8_free_tier_substitution (gq gg : Bool) (mid : String)
    (h : mid ≠ "mixtral-8x7b") :
    substituteModel ⟨gq, gg⟩ mid "free" false = "mixtral-8x7b" ∧
      (getAvailableModels ⟨gq, gg⟩ "free" false).find?
        (fun m => m.provider = "Groq") = some (mixtralEntry gq) := by
  have havail : getAvailableModels ⟨gq, gg⟩ "free" false = [mixtralEntry gq] := by
    simp [getAvailableModels, registry, mkEntry, planAccess, freeUnauthProviders,
      clientAvailable, mixtralEntry]
  have hd : decide ("mixtral-8x7b" = mid) = false := by
    simp only [decide_eq_false_iff_not]
    exact fun e => h e.symm
  have hfind : ([mixtralEntry gq].find? (fun m => m.id = mid)) = none := by
    simp [List.find?, mixtralEntry, hd]
  constructor
  · simp only [substituteModel, havail, hfind]
    simp [mixtralEntry]
  · rw [havail]
    simp [List.find?, mixtralEntry]

/-- C8 witness: the concrete request `gpt-4o`, free tier, unauthenticated. -/
theorem c8_free_tier_substitution_witness :
    substituteModel ⟨true, true⟩ "gpt-4o" "free" false = "mixtral-8x7b" :=
  (c8_free_tier_substitution true true "gpt-4o" (by decide)).1

/-- When nothing is observable at tick `k` (no fragment arrives, completion
and error unset, and the first-byte deadline not yet relevant), one loop
iteration only advances the clock by one tick. -/
theorem run_quiet_step (w : World) (T k fuel : Nat) (d : Bool) (o : List String)
    (hq : w.enq k = [])
    (hnt : ¬(k > 2 * T ∧ d = false))
    (hc : isComplete w k = false)
    (he : errorAt w k = none) :
    run w T (fuel + 1) (quietState k d o) = run w T fuel (quietState (k + 1) d o) := by
  simp only [run, sync, quietState]
  simp [hq, hnt, hc, he, threadAlive]

/-- First iteration on the stalled world: the fragment is moved into the
queue and dequeued at once. -/
theorem stall_first_iter (fuel : Nat) :
    run stallWorld 30 (fuel + 1) initState =
      run stallWorld 30 fuel
        { now := 0, arrived := 1, queue := [], hasData := true,
          lastChunk := 0, out := ["hello"], stall := false } := rfl

/-- Second iteration on the stalled world: the queue is empty, the clock
advances. -/
theorem stall_second_iter (fuel : Nat) :
    run stallWorld 30 (fuel + 1)
      { now := 0, arrived := 1, queue := [], hasData := true,
        lastChunk := 0, out := ["hello"], stall := false } =
      run stallWorld 30 fuel (quietState 1 true ["hello"]) := rfl

/-- After the single fragment of the stalled world is consumed, every
further iteration merely advances the clock: no exit condition can ever
fire (`has_received_data` blocks the timeout branch, and the remaining
exits all require the completion event or the error queue). -/
theorem stall_spins : ∀ fuel k, 1 ≤ k →
    (run stallWorld 30 fuel (quietState k true ["hello"])).1 = RKind.outOfFuel := by
  intro fuel
  induction fuel with
  | zero => intro k _; rfl
  | succ n ih =>
    intro k hk
    rw [run_quiet_step stallWorld 30 k n true ["hello"]]
    · exact ih (k + 1) (Nat.le_succ_of_le hk)
    · simp [stallWorld]; omega
    · simp
    · rfl
    · rfl

/-- Idle stepping up to the deadline: with no fragments and no signals, the
loop reaches tick `2*T + 1`, where the first-byte timeout branch fires. -/
theorem run_idle_to_timeout (w : World) (T : Nat)
    (hq : ∀ t, w.enq t = [])
    (hs : ∀ t, t ≤ 2 * T → isComplete w t = false ∧ errorAt w t = none) :
    ∀ j k, k + j = 2 * T + 1 →
      run w T (j + 1) (quietState k false []) = (.timedOut, timeoutFinal T) := by
  intro j
  induction j with
  | zero =>
    intro k hk
    have hk' : k = 2 * T + 1 := by omega
    rw [hk']
    simp only [run, sync, quietState, timeoutFinal]
    simp [hq, show 2 * T + 1 > 2 * T by omega]
  | succ n ih =>
    intro k hk
    have hkle : k ≤ 2 * T := by omega
    rw [run_quiet_step w T k (n + 1) false [] (hq k) (by omega) (hs k hkle).1 (hs k hkle).2]
    exact ih (k + 1) (by omega)

/-- Applying a sync step changes neither `has_received_data` nor the output. -/
theorem sync_hasData (w : World) (s : MState) : (sync w s).hasData = s.hasData := by
  simp only [sync]; split <;> rfl

/-- Applying a sync step leaves the fragments yielded so far unchanged. -/
theorem sync_out (w : World) (s : MState) : (sync w s).out = s.out := by
  simp only [sync]; split <;> rfl

/-- The `TimeoutError` branch requires `has_received_data` to be false, and
once a fragment has been dequeued `has_received_data` is true forever: a
timed-out attempt has delivered no fragment at all. -/
theorem out_nil_of_timedOut (w : World) (T : Nat) :
    ∀ fuel s, (s.hasData = false → s.out = []) →
      ∀ s', run w T fuel s = (.timedOut, s') → s'.out = [] := by
  intro fuel
  induction fuel with
  | zero => intro s _ s' h; simp [run] at h
  | succ n ih =>
    intro s hprop s' h
    have hd := sync_hasData w s
    have ho := sync_out w s
    simp only [run] at h
    split at h
    · rename_i hcond
      obtain ⟨-, h2⟩ := Prod.mk.injEq .. ▸ h
      subst h2
      simp only [MState.out]
      rw [ho]
      exact hprop (hd ▸ hcond.2)
    · split at h
      · exact absurd (congrArg Prod.fst h) (by simp)
      · split at h
        · exact absurd (congrArg Prod.fst h) (by simp)
        · split at h
          · exact absurd (congrArg Prod.fst h) (by simp)
          · split at h
            · exact ih _ (by intro hF; simp at hF) s' h
            · split at h
              · exact absurd (congrArg Prod.fst h) (by simp)
              · exact ih _ (by intro _; rw [ho]; exact hprop (hd ▸ ‹_›)) s' h

/-- One unfolding step of the pending-arrivals count. -/
theorem arrRem_of_le (w : World) (c a : Nat) (h : a ≤ c) :
    arrRem w c a = (w.enq a).length + arrRem w c (a + 1) := by
  rw [arrRem, if_pos h]

/-- Past the completion tick, nothing remains to arrive. -/
theorem arrRem_of_gt (w : World) (c a : Nat) (h : c < a) :
    arrRem w c a = 0 := by
  rw [arrRem, if_neg (by omega)]

/-- A sync step preserves the termination measure: it moves pending arrivals
into the queue one-for-one (after tick `c` the worker enqueues nothing). -/
theorem mu_sync (w : World) (c : Nat) (s : MState)
    (hq : ∀ t, c < t → w.enq t = [])
    (hinv : s.arrived = s.now ∨ s.arrived = s.now + 1) :
    mu w c (sync w s) = mu w c s ∧ (sync w s).arrived = s.now + 1 ∧
      (sync w s).now = s.now := by
  rcases hinv with h | h
  · have hle : s.arrived ≤ s.now := le_of_eq h
    simp only [sync, if_pos hle, mu]
    refine ⟨?_, trivial, trivial⟩
    by_cases hcase : s.now ≤ c
    · rw [h, arrRem_of_le w c s.now hcase]
      simp [List.length_append]
      omega
    · rw [h, arrRem_of_gt w c s.now (by omega), arrRem_of_gt w c (s.now + 1) (by omega),
        hq s.now (by omega)]
      simp
  · have : ¬ s.arrived ≤ s.now := by omega
    simp only [sync, if_neg this, mu]
    exact ⟨trivial, h, trivial⟩

/-- Every non-terminal iteration strictly decreases the measure `mu`; with
more fuel than `mu` the loop therefore reaches a terminal branch. -/
theorem run_term_aux (w : World) (T c : Nat)
    (hc : w.compTick = some c)
    (hq : ∀ t, c < t → w.enq t = []) :
    ∀ fuel s, (s.arrived = s.now ∨ s.arrived = s.now + 1) → mu w c s < fuel →
      (run w T fuel s).1 ≠ RKind.outOfFuel := by
  intro fuel
  induction fuel with
  | zero => intro s _ h; omega
  | succ n ih =>
    intro s hinv hmu
    obtain ⟨hmeq, harr, hnow⟩ := mu_sync w c s hq hinv
    simp only [run]
    split
    · simp
    · split
      · simp
      · split
        · simp
        · split
          · simp
          · split
            · rename_i e rest hqeq
              apply ih
              · show (sync w s).arrived = (sync w s).now ∨
                  (sync w s).arrived = (sync w s).now + 1
                right
                rw [harr, hnow]
              · show mu w c
                  { now := (sync w s).now, arrived := (sync w s).arrived, queue := rest,
                    hasData := true, lastChunk := (sync w s).now,
                    out := (sync w s).out ++ [e], stall := (sync w s).stall } < n
                simp only [mu] at hmeq hmu ⊢
                rw [hqeq] at hmeq
                simp only [List.length_cons] at hmeq
                omega
            · rename_i hcq hqvar hqe
              split
              · simp
              · apply ih
                · show (sync w s).arrived = (sync w s).now + 1 ∨
                    (sync w s).arrived = (sync w s).now + 1 + 1
                  left
                  rw [harr, hnow]
                · have hncomp : ¬ (isComplete w (sync w s).now = true) :=
                    fun hcompl => hcq ⟨hcompl, hqe⟩
                  simp only [isComplete, hc, decide_eq_true_eq] at hncomp
                  show mu w c
                    { now := (sync w s).now + 1, arrived := (sync w s).arrived,
                      queue := (sync w s).queue, hasData := (sync w s).hasData,
                      lastChunk := (sync w s).lastChunk, out := (sync w s).out,
                      stall := (sync w s).stall } < n
                  simp only [mu] at hmeq hmu ⊢
                  rw [hqe] at hmeq ⊢
                  simp only [List.length_nil] at hmeq ⊢
                  omega

/-- A sync step preserves the delivered-plus-queued prefix invariant. -/
theorem sync_inv (w : World) (s : MState)
    (hinv : s.arrived = s.now ∨ s.arrived = s.now + 1)
    (hl : s.out ++ s.queue = enqUpTo w s.arrived) :
    (sync w s).out ++ (sync w s).queue = enqUpTo w (sync w s).arrived := by
  rcases hinv with h | h
  · rw [h] at hl
    simp only [sync, if_pos (le_of_eq h)]
    show s.out ++ (s.queue ++ w.enq s.now) = enqUpTo w (s.now + 1)
    rw [← List.append_assoc, hl]
    rfl
  · have hn : ¬ s.arrived ≤ s.now := by omega
    simp only [sync, if_neg hn]
    exact hl

/-- After a sync step the arrival counter is exactly one tick ahead. -/
theorem sync_arrived_inv (w : World) (s : MState)
    (hinv : s.arrived = s.now ∨ s.arrived = s.now + 1) :
    (sync w s).arrived = (sync w s).now + 1 := by
  rcases hinv with h | h
  · simp only [sync, if_pos (le_of_eq h)]
  · have hn : ¬ s.arrived ≤ s.now := by omega
    simp only [sync, if_neg hn]
    exact h

/-- Main ordering invariant of the drain loop: at every reachable state the
fragments yielded so far followed by the still-queued fragments are exactly
the fragments the worker enqueued, in arrival order. -/
theorem run_inv (w : World) (T : Nat) :
    ∀ fuel s, (s.arrived = s.now ∨ s.arrived = s.now + 1) →
      s.out ++ s.queue = enqUpTo w s.arrived →
      ((run w T fuel s).2.out ++ (run w T fuel s).2.queue
        = enqUpTo w (run w T fuel s).2.arrived) := by
  intro fuel
  induction fuel with
  | zero => intro s _ hl; exact hl
  | succ n ih =>
    intro s hinv hl
    have hs := sync_inv w s hinv hl
    have ha := sync_arrived_inv w s hinv
    simp only [run]
    split
    · exact hs
    · split
      · exact hs
      · split
        · exact hs
        · split
          · exact hs
          · split
            · rename_i e rest hqeq
              apply ih
              · right; exact ha
              · show ((sync w s).out ++ [e]) ++ rest = enqUpTo w (sync w s).arrived
                rw [← hs, hqeq]
                simp
            · split
              · exact hs
              · apply ih
                · left; exact ha
                · exact hs

/-- Idle stepping to an early worker error: with no fragments, the error
pushed at tick `e` (with completion set at the same tick, as the worker
does) is re-raised by the monitor at tick `e` with `stop_event` set. -/
theorem run_idle_to_failed (w : World) (T e : Nat) (msg : String)
    (hq : ∀ t, w.enq t = [])
    (herr : w.errTick = some (e, msg))
    (hcomp : w.compTick = some e)
    (hT : e ≤ 2 * T) :
    ∀ j k, k + j = e → run w T (j + 1) (quietState k false []) = (.failed msg, failedFinal e) := by
  intro j
  induction j with
  | zero =>
    intro k hk
    have hk' : k = e := by omega
    rw [hk']
    simp only [run, sync, quietState, failedFinal]
    simp [hq, errorAt, herr, show ¬ (e > 2 * T) by omega]
  | succ n ih =>
    intro k hk
    rw [run_quiet_step w T k (n + 1) false [] (hq k) (by omega)
      (by simp [isComplete, hcomp]; omega)
      (by simp [errorAt, herr]; omega)]
    exact ih (k + 1) (by omega)

/-- C2, counterexample: the claim promises that every attempt ends in
bounded time even when the worker produces a fragment and then stops
forever without setting the completion signal; on the code the drain loop
then never exits — with any amount of fuel the model is still running. -/
theorem c2_counterexample : runsForever stallWorld 30 := by
  intro fuel
  match fuel with
  | 0 => rfl
  | 1 => rfl
  | (n + 2) =>
    rw [stall_first_iter, stall_second_iter]
    exact stall_spins n 1 le_rfl

/-- C2 (amended): the drain loop of `_stream_with_timeout` terminates for
every attempt whose worker eventually sets the completion signal (at tick
`c`) and enqueues nothing afterwards — within `c` clock ticks plus one loop
iteration per enqueued fragment; without the completion signal an attempt
that received a fragment can spin forever. -/
theorem c2_drain_terminates (w : World) (T c : Nat)
    (hc : w.compTick = some c)
    (hq : ∀ t, c < t → w.enq t = []) :
    (run w T (c + 2 + arrRem w c 0) initState).1 ≠ RKind.outOfFuel := by
  apply run_term_aux w T c hc hq
  · left; rfl
  · simp only [mu, initState, List.length_nil]
    omega

/-- C2 witness: the well-behaved world completing at tick 5. -/
theorem c2_drain_terminates_witness :
    finishWorld.compTick = some 5 ∧
      (run finishWorld 30 (5 + 2 + arrRem finishWorld 5 0) initState).1 ≠ RKind.outOfFuel :=
  ⟨rfl, c2_drain_terminates finishWorld 30 5 rfl
    (by intro t ht; simp only [finishWorld]; rw [if_neg (by omega)])⟩

/-- C3: for every attempt in which the worker enqueues no fragment at all
(and neither signal fires before the deadline), the monitor raises the
timeout at tick `2*T + 1` — `deadline + 0.5` time units after attempt
start, not later — with the stall signal set; and, for every world, the
timeout branch is never taken once a fragment has been received (a
timed-out attempt has empty output). -/
theorem c3_first_byte_deadline (w : World) (T : Nat)
    (hq : ∀ t, w.enq t = [])
    (hs : ∀ t, t ≤ 2 * T → isComplete w t = false ∧ errorAt w t = none) :
    (run w T (2 * T + 2) initState = (.timedOut, timeoutFinal T) ∧
      (timeoutFinal T).stall = true ∧ (timeoutFinal T).now = 2 * T + 1) ∧
    ∀ (w' : World) (T' fuel : Nat) (s' : MState),
      run w' T' fuel initState = (.timedOut, s') → s'.out = [] := by
  constructor
  · refine ⟨?_, rfl, rfl⟩
    have hinit : initState = quietState 0 false [] := rfl
    rw [hinit]
    exact run_idle_to_timeout w T hq hs (2 * T + 1) 0 (by omega)
  · intro w' T' fuel s' h
    exact out_nil_of_timedOut w' T' fuel initState (fun _ => rfl) s' h

/-- C3 witness: the silent world with the default 30-second deadline. -/
theorem c3_first_byte_deadline_witness :
    run silentWorld 30 62 initState = (.timedOut, timeoutFinal 30) :=
  ((c3_first_byte_deadline silentWorld 30 (fun _ => rfl)
    (fun _ _ => ⟨rfl, rfl⟩)).1).1

/-- C5, counterexample: the claim promises that a successful attempt drains
the channel to empty and emits exactly the enqueued sequence; on the code
the quiet-tail exit (no new chunk for more than 10 time units and
completion set) fires with the late fragment `"b"` still in the queue, so
the attempt ends successfully with `out = ["a"]` although the worker
enqueued `["a", "b"]`. -/
theorem c5_counterexample :
    run lateWorld 30 40 initState =
      (.done, { now := 30, arrived := 31, queue := ["b"], hasData := true,
                lastChunk := 0, out := ["a"], stall := false }) ∧
      enqUpTo lateWorld 31 = ["a", "b"] := by
  constructor
  · rfl
  · decide

/-- C5 (amended): at every state the drain loop of `_stream_with_timeout`
can reach, the fragments emitted so far followed by the still-queued ones
are exactly the fragments the worker enqueued, in order — so the emitted
sequence is always an in-order prefix of the worker sequence, with no
reordering, duplication or interleaving; full delivery is guaranteed only
when the final queue is empty, and the quiet-tail exit may end a successful
attempt with fragments still undelivered. -/
theorem c5_emitted_prefix (w : World) (T fuel : Nat) :
    ((run w T fuel initState).2).out ++ ((run w T fuel initState).2).queue
      = enqUpTo w ((run w T fuel initState).2).arrived :=
  run_inv w T fuel initState (Or.inl rfl) rfl

/-- C6, counterexample: the claim promises an attempt whose worker pushed
an error never ends as a success; on the code, when the error (with the
completion event, pushed by the worker at tick 30) lands after a quiet gap
longer than 10 time units since the last fragment, the quiet-tail exit
fires before the error check, and the attempt ends as a normal success
with the error never raised. -/
theorem c6_counterexample :
    quietErrWorld.errTick = some (30, "boom") ∧
      run quietErrWorld 30 70 initState =
        (.done, { now := 30, arrived := 31, queue := [], hasData := true,
                  lastChunk := 0, out := ["hi"], stall := false }) :=
  ⟨rfl, rfl⟩

/-- C6 (amended): when the worker's provider call raises before any
fragment was produced — the worker pushes the error at tick `e` and sets
the completion event (chat_handler.py 155-157) — the monitor observes the
error signal, sets the stall signal and re-raises that error, and the
attempt ends in the failed state, not as a success; the guarantee does not
extend to errors landing after a long quiet gap mid-stream, where the
quiet-tail exit wins. -/
theorem c6_error_failed (w : World) (T e : Nat) (msg : String)
    (hq : ∀ t, w.enq t = [])
    (herr : w.errTick = some (e, msg))
    (hcomp : w.compTick = some e)
    (hT : e ≤ 2 * T) :
    run w T (e + 1) initState = (.failed msg, failedFinal e) ∧
      (failedFinal e).stall = true := by
  constructor
  · have hinit : initState = quietState 0 false [] := rfl
    rw [hinit]
    exact run_idle_to_failed w T e msg hq herr hcomp hT e 0 (by omega)
  · rfl

/-- C6 witness: worker error at tick 4 with the default deadline. -/
theorem c6_error_failed_witness :
    run earlyErrWorld 30 5 initState = (.failed "boom", failedFinal 4) :=
  (c6_error_failed earlyErrWorld 30 4 "boom" (fun _ => rfl) rfl rfl (by omega)).1

/-- When the per-entry body of `get_available_models` keeps an entry, that
entry copies the id/provider of the registry record and computes its
availability flag from the client object alone. -/
theorem mkEntry_some (mm : MM) (plan : String) (auth : Bool) (m : ModelCfg) (b : Entry)
    (h : mkEntry mm plan auth m = some b) :
    b.id = m.id ∧ b.provider = m.provider ∧ b.available = clientAvailable mm m.clientKind := by
  simp only [mkEntry] at h
  split at h
  · split at h
    · cases h
    · split at h
      · cases h
      · cases h; exact ⟨rfl, rfl, rfl⟩
  · cases h

/-- Filtering the registry through an id-preserving per-entry body keeps the
id list a sublist of the registry id list. -/
theorem filterMap_map_id_sublist (f : ModelCfg → Option Entry)
    (hf : ∀ m b, f m = some b → b.id = m.id) :
    ∀ l : List ModelCfg, ((l.filterMap f).map Entry.id).Sublist (l.map ModelCfg.id) := by
  intro l
  induction l with
  | nil => simp
  | cons m rest ih =>
    rw [List.filterMap_cons]
    cases hfm : f m with
    | none =>
      simp only [List.map_cons]
      exact ih.cons m.id
    | some b =>
      simp only [List.map_cons]
      rw [hf m b hfm]
      exact ih.cons₂ m.id

/-- The ids of the available-and-enabled models contain no duplicates. -/
theorem availTrueIds_nodup (mm : MM) (plan : String) (auth : Bool) :
    (((getAvailableModels mm plan auth).filter (fun m => m.available)).map Entry.id).Nodup := by
  have h1 : (((getAvailableModels mm plan auth).filter (fun m => m.available)).map Entry.id).Sublist
      ((getAvailableModels mm plan auth).map Entry.id) :=
    ((getAvailableModels mm plan auth).filter_sublist).map Entry.id
  have h2 := filterMap_map_id_sublist (mkEntry mm plan auth)
    (fun m b h => (mkEntry_some mm plan auth m b h).1) registry
  have h3 : (registry.map ModelCfg.id).Nodup := by decide
  exact (h1.trans h2).nodup h3

/-- Membership in the fallback list is membership among the available ids
other than the primary. -/
theorem mem_fallback (mm : MM) (mid plan : String) (auth : Bool) (x : String) :
    x ∈ getFallbackModels mm mid plan auth ↔
      (x ∈ ((getAvailableModels mm plan auth).filter (fun m => m.available)).map Entry.id
        ∧ x ≠ mid) := by
  simp [getFallbackModels, List.mem_filter]

/-- The fallback list contains no duplicates. -/
theorem fallback_nodup (mm : MM) (mid plan : String) (auth : Bool) :
    (getFallbackModels mm mid plan auth).Nodup := by
  unfold getFallbackModels
  rw [(List.mergeSort_perm _ keyLE).nodup_iff]
  exact (availTrueIds_nodup mm plan auth).filter _

/-- The Python tuple key comparison is total. -/
theorem keyLE_total : ∀ a b, (keyLE a b || keyLE b a) = true := by
  intro a b
  simp [keyLE]
  omega

/-- The Python tuple key comparison is transitive. -/
theorem keyLE_trans : ∀ a b c, keyLE a b → keyLE b c → keyLE a c := by
  intro a b c hab hbc
  simp [keyLE] at hab hbc ⊢
  omega

/-- The fallback list is sorted with respect to the tuple key. -/
theorem fallback_sorted (mm : MM) (mid plan : String) (auth : Bool) :
    (getFallbackModels mm mid plan auth).Pairwise (fun a b => keyLE a b) := by
  unfold getFallbackModels
  exact List.sorted_mergeSort keyLE_trans keyLE_total _

/-- Every available-and-enabled model id is one of the three ids whose
client is Groq or Google: the OpenAI and Anthropic entries always carry
`available = false`. -/
theorem availTrue_mem_cases (mm : MM) (plan : String) (auth : Bool) (x : String)
    (h : x ∈ ((getAvailableModels mm plan auth).filter (fun m => m.available)).map Entry.id) :
    x = "mixtral-8x7b" ∨ x = "llama-3.3-70b" ∨ x = "gemini-pro" := by
  simp only [List.mem_map, List.mem_filter] at h
  obtain ⟨e, ⟨he, hav⟩, rfl⟩ := h
  simp only [getAvailableModels, List.mem_filterMap] at he
  obtain ⟨m, hm, hmk⟩ := he
  obtain ⟨hid, hprov, havail⟩ := mkEntry_some mm plan auth m e hmk
  fin_cases hm <;> simp_all [clientAvailable]

/-- On the ids that can actually appear in a fallback list, the Python
tuple key order implies the claim-side provider/tier order. -/
theorem keyLE_implies_specLE (a b : String)
    (ha : a = "mixtral-8x7b" ∨ a = "llama-3.3-70b" ∨ a = "gemini-pro")
    (hb : b = "mixtral-8x7b" ∨ b = "llama-3.3-70b" ∨ b = "gemini-pro")
    (h : keyLE a b = true) : specLE a b := by
  rcases ha with rfl | rfl | rfl <;> rcases hb with rfl | rfl | rfl <;>
    (revert h; unfold specLE; decide)

/-- The fallback list is sorted with respect to the claim-side order. -/
theorem fallback_sorted_spec (mm : MM) (mid plan : String) (auth : Bool) :
    (getFallbackModels mm mid plan auth).Pairwise specLE := by
  refine List.Pairwise.imp_of_mem ?_ (fallback_sorted mm mid plan auth)
  intro a b ha hb h
  exact keyLE_implies_specLE a b
    (availTrue_mem_cases mm plan auth a ((mem_fallback mm mid plan auth a).1 ha).1)
    (availTrue_mem_cases mm plan auth b ((mem_fallback mm mid plan auth b).1 hb).1)
    h

/-- C7: for every requested model id, plan tier, authentication state and
client environment, the candidate list is the requested (or substituted)
model first, followed by exactly the remaining allowed-and-available model
ids with the requested model removed, without duplicates, sorted by
provider priority (Groq before Google before OpenAI/Anthropic) and then by
capability tier (basic < standard < advanced < enterprise). -/
theorem c7_candidate_order (gq gg : Bool) (mid plan : String) (auth : Bool) :
    candidatesFor ⟨gq, gg⟩ mid plan auth = mid :: getFallbackModels ⟨gq, gg⟩ mid plan auth ∧
    mid ∉ getFallbackModels ⟨gq, gg⟩ mid plan auth ∧
    (getFallbackModels ⟨gq, gg⟩ mid plan auth).Nodup ∧
    (∀ x, x ∈ getFallbackModels ⟨gq, gg⟩ mid plan auth ↔
      (x ∈ ((getAvailableModels ⟨gq, gg⟩ plan auth).filter (fun m => m.available)).map Entry.id
        ∧ x ≠ mid)) ∧
    (getFallbackModels ⟨gq, gg⟩ mid plan auth).Pairwise specLE := by
  refine ⟨rfl, ?_, fallback_nodup _ mid plan auth, mem_fallback _ mid plan auth,
    fallback_sorted_spec _ mid plan auth⟩
  intro hmem
  exact ((mem_fallback _ mid plan auth mid).1 hmem).2 rfl

/-- C10: for every plan tier, authentication state and client environment,
`get_available_models` reports every OpenAI and Anthropic model with
`available = false` (their clients are unconditionally `None`), and
consequently no OpenAI or Anthropic model ever appears in any fallback
candidate list. -/
theorem c10_no_openai_anthropic (gq gg : Bool) (plan : String) (auth : Bool) :
    (∀ e, e ∈ getAvailableModels ⟨gq, gg⟩ plan auth →
       e.provider = "OpenAI" ∨ e.provider = "Anthropic" → e.available = false) ∧
    (∀ mid x, x ∈ getFallbackModels ⟨gq, gg⟩ mid plan auth →
       ∀ c, getModelConfig x = some c →
         c.provider ≠ "OpenAI" ∧ c.provider ≠ "Anthropic") := by
  constructor
  · intro e he hprov
    simp only [getAvailableModels, List.mem_filterMap] at he
    obtain ⟨m, hm, hmk⟩ := he
    obtain ⟨hid, hpr, hav⟩ := mkEntry_some _ plan auth m e hmk
    fin_cases hm <;> simp_all [clientAvailable]
  · intro mid x hx c hc
    rcases availTrue_mem_cases _ plan auth x
        ((mem_fallback _ mid plan auth x).1 hx).1 with rfl | rfl | rfl <;>
      simp_all [getModelConfig, registry] <;> subst hc <;> decide

/-- C10 witness: under the pro plan with both live clients configured, the
`gpt-3.5-turbo` entry is listed and carries `available = false`. -/
theorem c10_no_openai_anthropic_witness :
    gpt35Entry ∈ getAvailableModels ⟨true, true⟩ "pro" true ∧
      gpt35Entry.available = false :=
  ⟨by decide,
   (c10_no_openai_anthropic true true "pro" true).1 gpt35Entry (by decide) (by decide)⟩

/-- Each occurrence of a candidate in the list is attempted at most once by
the candidate loop: there is no retry of any kind. -/
theorem streamLoop_attempt_count (mm : MM) (att : String → AttOutcome) (T : Nat) :
    ∀ (cands : List String) (idx : Nat) (le : Option String) (c : String),
      (((streamLoop mm att T cands idx le).attempted).map Prod.snd).count c
        ≤ cands.count c := by
  intro cands
  induction cands with
  | nil => intro idx le c; simp [streamLoop]
  | cons mid rest ih =>
    intro idx le c
    have hmono : ∀ n, n ≤ rest.count c → n ≤ (mid :: rest).count c := by
      intro n h
      rw [List.count_cons]
      omega
    simp only [streamLoop]
    cases hcfg : getModelConfig mid with
    | none => exact hmono _ (ih (idx + 1) le c)
    | some cfg =>
      dsimp only
      by_cases hcl : clientAvailable mm cfg.clientKind = false
      · rw [if_pos hcl]
        exact hmono _ (ih (idx + 1) le c)
      · rw [if_neg hcl]
        cases hatt : att mid with
        | success f =>
          show (([(idx, mid)]).map Prod.snd).count c ≤ (mid :: rest).count c
          simp only [List.map_cons, List.map_nil, List.count_cons, List.count_nil]
          split <;> omega
        | timedOut =>
          show ((Trace.prepend _ [(idx, mid)] _ _).attempted.map Prod.snd).count c
            ≤ (mid :: rest).count c
          simp only [Trace.prepend, List.cons_append, List.nil_append, List.map_cons,
            List.count_cons]
          have := ih (idx + 1) (some (timeoutMsg mid T)) c
          split <;> omega
        | errored p m =>
          show ((Trace.prepend _ [(idx, mid)] _ _).attempted.map Prod.snd).count c
            ≤ (mid :: rest).count c
          simp only [Trace.prepend, List.cons_append, List.nil_append, List.map_cons,
            List.count_cons]
          have := ih (idx + 1) (some m) c
          split <;> omega

/-- C1 (amended): `stream_response` never retries a candidate and never
sleeps: each occurrence of a candidate in the attempt list is attempted at
most once whatever outcome (rate-limit error included) its attempt has, and
since the candidate list built for a request contains each id at most once,
every candidate of a request is attempted at most once before the loop
moves on. -/
theorem c1_no_retry_no_backoff (mm : MM) (att : String → AttOutcome) (T : Nat) :
    (∀ (cands : List String) (idx : Nat) (le : Option String) (c : String),
      (((streamLoop mm att T cands idx le).attempted).map Prod.snd).count c
        ≤ cands.count c) ∧
    (∀ (mid plan : String) (auth : Bool) (c : String),
      (candidatesFor mm mid plan auth).count c ≤ 1) ∧
    (∀ (mid plan : String) (auth : Bool) (c : String),
      (((streamResponse mm att T mid plan auth).attempted).map Prod.snd).count c ≤ 1) := by
  have hcand : ∀ (mid plan : String) (auth : Bool) (c : String),
      (candidatesFor mm mid plan auth).count c ≤ 1 := by
    intro mid plan auth c
    have hnd : (candidatesFor mm mid plan auth).Nodup := by
      rw [candidatesFor, List.nodup_cons]
      exact ⟨fun h => ((mem_fallback mm mid plan auth mid).1 h).2 rfl,
        fallback_nodup mm mid plan auth⟩
    exact List.nodup_iff_count_le_one.1 hnd c
  refine ⟨streamLoop_attempt_count mm att T, hcand, ?_⟩
  intro mid plan auth c
  exact le_trans
    (streamLoop_attempt_count mm att T (candidatesFor mm mid plan auth) 0 none c)
    (hcand mid plan auth c)

/-- The concrete candidate list for a pro-plan request for `mixtral-8x7b`
with only the Groq client live. -/
theorem candidates_mixtral_pro :
    candidatesFor ⟨true, false⟩ "mixtral-8x7b" "pro" true = ["mixtral-8x7b", "llama-3.3-70b"] := by
  simp [candidatesFor, getFallbackModels, getAvailableModels, registry, mkEntry, planAccess,
    freeAuthProviders, freeUnauthProviders, clientAvailable, List.mergeSort]

/-- C1, counterexample: in a run where `mixtral-8x7b` (primary, Groq client
live) fails with an HTTP 429 rate-limit error, `stream_response` attempts
it exactly once — no backoff sleep, no second attempt — and immediately
attempts the next candidate. -/
theorem c1_counterexample :
    rateLimitEnv "mixtral-8x7b" =
      .errored [] "Error code: 429 - Rate limit reached for model, please try again in 4.0s" ∧
    (streamResponse ⟨true, false⟩ rateLimitEnv 30 "mixtral-8x7b" "pro" true).attempted =
      [(0, "mixtral-8x7b"), (1, "llama-3.3-70b")] ∧
    ((streamResponse ⟨true, false⟩ rateLimitEnv 30 "mixtral-8x7b" "pro" true).attempted.map
      Prod.snd).count "mixtral-8x7b" = 1 := by
  refine ⟨rfl, ?_, ?_⟩ <;>
    rw [show streamResponse ⟨true, false⟩ rateLimitEnv 30 "mixtral-8x7b" "pro" true =
      streamLoop ⟨true, false⟩ rateLimitEnv 30
        (candidatesFor ⟨true, false⟩ "mixtral-8x7b" "pro" true) 0 none from rfl,
      candidates_mixtral_pro] <;> rfl

/-- The all-models-failed message is never the empty string. -/
theorem allFailedMsg_ne_empty (o : Option String) : allFailedMsg o ≠ "" := by
  intro h
  have hlen := congrArg String.length h
  simp only [allFailedMsg, String.length_append] at hlen
  have h41 : ("All available models failed. Last error: ").length = 41 := by decide
  have h0 : ("" : String).length = 0 := rfl
  omega

/-- When no candidate's attempt succeeds, the loop always falls through to
the terminal error branch: the trace raises an all-models-failed message. -/
theorem streamLoop_all_fail (mm : MM) (att : String → AttOutcome) (T : Nat)
    (h : ∀ c f, att c ≠ .success f) :
    ∀ (cands : List String) (idx : Nat) (le : Option String),
      ∃ o, (streamLoop mm att T cands idx le).raised = some (allFailedMsg o) := by
  intro cands
  induction cands with
  | nil => intro idx le; exact ⟨le, rfl⟩
  | cons mid rest ih =>
    intro idx le
    simp only [streamLoop]
    cases hcfg : getModelConfig mid with
    | none => exact ih (idx + 1) le
    | some cfg =>
      dsimp only
      by_cases hcl : clientAvailable mm cfg.clientKind = false
      · rw [if_pos hcl]
        exact ih (idx + 1) le
      · rw [if_neg hcl]
        cases hatt : att mid with
        | success f => exact absurd hatt (h mid f)
        | timedOut =>
          obtain ⟨o, ho⟩ := ih (idx + 1) (some (timeoutMsg mid T))
          exact ⟨o, ho⟩
        | errored p m =>
          obtain ⟨o, ho⟩ := ih (idx + 1) (some m)
          exact ⟨o, ho⟩

/-- C4 (amended): for every request in which every candidate's attempt
fails, the caller-visible stream is the yielded chunks as content records
(switch notices, any partial output, and one final content record carrying
the error text) followed by exactly one non-empty error record and then the
terminal done marker — the caller always receives the error record before
the terminal marker, never a stream that simply ends. -/
theorem c4_error_before_done (mm : MM) (att : String → AttOutcome) (T : Nat)
    (mid plan : String) (auth : Bool)
    (h : ∀ c f, att c ≠ .success f) :
    ∃ m, (streamResponse mm att T mid plan auth).raised = some m ∧ m ≠ "" ∧
      generateEvents (streamResponse mm att T mid plan auth) =
        ((streamResponse mm att T mid plan auth).chunks.map Event.content)
          ++ [Event.errorRec m, Event.doneMark] := by
  obtain ⟨o, ho⟩ := streamLoop_all_fail mm att T h (candidatesFor mm mid plan auth) 0 none
  refine ⟨allFailedMsg o, ho, allFailedMsg_ne_empty o, ?_⟩
  simp [generateEvents, streamResponse] at ho ⊢
  rw [ho]
  rfl

/-- C4 witness: a pro-plan request where every candidate errors. -/
theorem c4_error_before_done_witness :
    ∃ m, (streamResponse ⟨true, false⟩ allFailEnv 30 "mixtral-8x7b" "pro" true).raised = some m ∧
      m ≠ "" ∧
      generateEvents (streamResponse ⟨true, false⟩ allFailEnv 30 "mixtral-8x7b" "pro" true) =
        ((streamResponse ⟨true, false⟩ allFailEnv 30 "mixtral-8x7b" "pro" true).chunks.map
          Event.content) ++ [Event.errorRec m, Event.doneMark] :=
  c4_error_before_done ⟨true, false⟩ allFailEnv 30 "mixtral-8x7b" "pro" true
    (by intro c f hc; simp [allFailEnv] at hc)

/-- The concrete candidate list for an unauthenticated free-tier request
for `mixtral-8x7b` with the Groq client live. -/
theorem candidates_mixtral_free :
    candidatesFor ⟨true, false⟩ "mixtral-8x7b" "free" false = ["mixtral-8x7b"] := by
  simp [candidatesFor, getFallbackModels, getAvailableModels, registry, mkEntry, planAccess,
    freeAuthProviders, freeUnauthProviders, clientAvailable, List.mergeSort]

/-- C4, counterexample: when the only candidate fails, the claimed shape
"exactly one error record followed by the done marker, with no content
records" is wrong: the error text is first yielded as an ordinary chunk
(chat_handler.py line 80), so a content record carrying it precedes the
error record. -/
theorem c4_counterexample :
    chatStream ⟨true, false⟩ allFailEnv 30 "mixtral-8x7b" "free" false =
      [Event.content "\n\n[Error: All available models failed. Last error: boom]",
       Event.errorRec "All available models failed. Last error: boom",
       Event.doneMark] ∧
    Event.content "\n\n[Error: All available models failed. Last error: boom]" ∈
      chatStream ⟨true, false⟩ allFailEnv 30 "mixtral-8x7b" "free" false := by
  have hsub : substituteModel ⟨true, false⟩ "mixtral-8x7b" "free" false = "mixtral-8x7b" := rfl
  have hmain : chatStream ⟨true, false⟩ allFailEnv 30 "mixtral-8x7b" "free" false =
      [Event.content "\n\n[Error: All available models failed. Last error: boom]",
       Event.errorRec "All available models failed. Last error: boom",
       Event.doneMark] := by
    rw [show chatStream ⟨true, false⟩ allFailEnv 30 "mixtral-8x7b" "free" false =
      generateEvents (streamLoop ⟨true, false⟩ allFailEnv 30
        (candidatesFor ⟨true, false⟩ "mixtral-8x7b" "free" false) 0 none) from rfl,
      candidates_mixtral_free]
    rfl
  exact ⟨hmain, by rw [hmain]; exact List.mem_cons_self _ _⟩

/-- C9 (amended): a switch notice is yielded for exactly the candidates
that are actually attempted at a positive `enumerate` index — whether or
not any earlier candidate was actually attempted (candidates skipped for a
missing config or a `None` client advance the index without an attempt and
without a notice), so a notice can precede the very first actual attempt. -/
theorem c9_notice_iff_positive_index (mm : MM) (att : String → AttOutcome) (T : Nat) :
    ∀ (cands : List String) (idx : Nat) (le : Option String),
      (streamLoop mm att T cands idx le).noticed =
        (streamLoop mm att T cands idx le).attempted.filter (fun p => 0 < p.1) := by
  intro cands
  induction cands with
  | nil => intro idx le; rfl
  | cons mid rest ih =>
    intro idx le
    simp only [streamLoop]
    cases hcfg : getModelConfig mid with
    | none => exact ih (idx + 1) le
    | some cfg =>
      dsimp only
      by_cases hcl : clientAvailable mm cfg.clientKind = false
      · rw [if_pos hcl]
        exact ih (idx + 1) le
      · rw [if_neg hcl]
        cases hatt : att mid with
        | success f =>
          show (if idx > 0 then [(idx, mid)] else []) =
            List.filter (fun p => 0 < p.1) [(idx, mid)]
          by_cases hidx : 0 < idx
          · rw [if_pos hidx]
            simp [List.filter, hidx]
          · rw [if_neg hidx]
            simp [List.filter, hidx]
        | timedOut =>
          show (if idx > 0 then [(idx, mid)] else []) ++ _ =
            List.filter (fun p => 0 < p.1) ((idx, mid) :: _)
          rw [ih (idx + 1) (some (timeoutMsg mid T))]
          by_cases hidx : 0 < idx
          · rw [if_pos hidx]
            simp [List.filter_cons, hidx]
          · rw [if_neg hidx]
            simp [List.filter_cons, hidx]
        | errored p m =>
          show (if idx > 0 then [(idx, mid)] else []) ++ _ =
            List.filter (fun p => 0 < p.1) ((idx, mid) :: _)
          rw [ih (idx + 1) (some m)]
          by_cases hidx : 0 < idx
          · rw [if_pos hidx]
            simp [List.filter_cons, hidx]
          · rw [if_neg hidx]
            simp [List.filter_cons, hidx]

/-- The concrete candidate list for a pro-plan request for an unregistered
model id with only the Groq client live. -/
theorem candidates_ghost_pro :
    candidatesFor ⟨true, false⟩ "ghost-model" "pro" true =
      ["ghost-model", "mixtral-8x7b", "llama-3.3-70b"] := by
  simp [candidatesFor, getFallbackModels, getAvailableModels, registry, mkEntry, planAccess,
    freeAuthProviders, freeUnauthProviders, clientAvailable, List.mergeSort, List.merge, keyLE,
    getPriority, getCatRank, getModelConfig]

/-- C9, counterexample: requesting the unregistered id `ghost-model`, the
primary candidate is skipped without an attempt (no config), yet the first
actually attempted candidate `mixtral-8x7b` sits at index 1 and therefore
receives a switch notice — a notice emitted although no attempt against an
earlier candidate was ever made, refuting "except before the very first
attempt". -/
theorem c9_counterexample :
    (streamResponse ⟨true, false⟩ okEnv 30 "ghost-model" "pro" true).attempted =
      [(1, "mixtral-8x7b")] ∧
    (streamResponse ⟨true, false⟩ okEnv 30 "ghost-model" "pro" true).noticed =
      [(1, "mixtral-8x7b")] ∧
    (streamResponse ⟨true, false⟩ okEnv 30 "ghost-model" "pro" true).chunks =
      ["\n\n[Switching to Llama 3.1 8B Instant due to timeout...]\n\n", "ok"] := by
  refine ⟨?_, ?_, ?_⟩ <;>
    rw [show streamResponse ⟨true, false⟩ okEnv 30 "ghost-model" "pro" true =
      streamLoop ⟨true, false⟩ okEnv 30
        (candidatesFor ⟨true, false⟩ "ghost-model" "pro" true) 0 none from rfl,
      candidates_ghost_pro] <;> rfl
